import Mathlib

/-!
Verification of the grant-tracker pipeline (`src/grant_manager.py`):
normalization, relevance scoring and deadline alerting, shallowly embedded
over an explicit record-table model.

Records are rows of a `DF` (column names plus rows of tagged cell values, as
in a pandas `DataFrame`); machine floats' NaN / NaT and pandas' missing cells
are the explicit `Value.nan` marker; timestamps are integer seconds, so that
`Timedelta.days` is flooring division by 86400.  Fallible Python operations
(KeyError on a missing column label, TypeError on ordering a string against a
number) return `Except String`.
-/

/-- Python `str.isspace` characters relevant to `str.strip` (ASCII fragment:
space, tab, newline, carriage return, vertical tab, form feed). -/
def wsb (c : Char) : Bool :=
  c.toNat = 32 ∨ c.toNat = 9 ∨ c.toNat = 10 ∨ c.toNat = 13 ∨ c.toNat = 11 ∨ c.toNat = 12

/-- Python `str.lower` on one character (ASCII fragment). -/
def pyLowerC (c : Char) : Char :=
  if 65 ≤ c.toNat ∧ c.toNat ≤ 90 then Char.ofNat (c.toNat + 32) else c

/-- One character of Python `str.replace(' ', '_')` (32 is the space). -/
def replS (c : Char) : Char :=
  if c.toNat = 32 then '_' else c

/-- Python `str.strip()` on a character list: drop leading and trailing whitespace. -/
def stripL (l : List Char) : List Char :=
  (((l.dropWhile wsb).reverse).dropWhile wsb).reverse

/-- `x.strip().lower().replace(' ', '_')` on a character list (line 11 of the source). -/
def normCh (l : List Char) : List Char :=
  ((stripL l).map pyLowerC).map replS

/-- The column-name transform of `normalize_grant_data` (line 11). -/
def normName (s : String) : String :=
  String.mk (normCh s.data)

/-- A cell of a record: text, a number, a timestamp (seconds since the epoch),
or the explicit no-value marker (NaN / NaT / missing). -/
inductive Value where
  | str (s : String)
  | num (q : ℚ)
  | date (t : ℤ)
  | nan
deriving Repr, DecidableEq

/-- A record table: ordered column labels and ordered rows of cells, as in a
pandas `DataFrame`.  A well-formed table is rectangular (`Rect`). -/
structure DF where
  cols : List String
  rows : List (List Value)
deriving Repr, DecidableEq

/-- Every row has exactly one cell per column. -/
def Rect (df : DF) : Prop :=
  ∀ r ∈ df.rows, r.length = df.cols.length

/-- Index of the first column with the given label. -/
def idxOfName (name : String) : List String → Option Nat
  | [] => none
  | c :: t => if c = name then some 0 else (idxOfName name t).map (· + 1)

/-- Look a cell up by column label (first matching label), `none` when the
label is absent — the `row.get(label)` / `row[label]` access path. -/
def cellD (cols : List String) (row : List Value) (name : String) : Option Value :=
  match idxOfName name cols with
  | some i => row.get? i
  | none => none

/-- Digit value of a character. -/
def digitVal (c : Char) : Option Nat :=
  if c.isDigit then some (c.toNat - 48) else none

/-- Parse a non-empty all-digit character list. -/
def parseNatDigits (l : List Char) : Option Nat :=
  if l.isEmpty then none
  else l.foldl (fun acc c => acc.bind fun a => (digitVal c).map (fun d => a * 10 + d)) (some 0)

/-- Gregorian leap year. -/
def isLeap (y : ℤ) : Bool :=
  (y % 4 = 0 ∧ y % 100 ≠ 0) ∨ y % 400 = 0

/-- Days in a month. -/
def daysInMonth (y : ℤ) (m : Nat) : Nat :=
  if m = 2 then (if isLeap y then 29 else 28)
  else if m = 4 ∨ m = 6 ∨ m = 9 ∨ m = 11 then 30
  else 31

/-- Days from the civil epoch 1970-01-01 (standard civil-calendar formula). -/
def daysFromCivil (y : ℤ) (m d : Nat) : ℤ :=
  let y' : ℤ := if m ≤ 2 then y - 1 else y
  let era : ℤ := Int.fdiv y' 400
  let yoe : ℤ := y' - era * 400
  let doy : ℤ := (153 * ((m : ℤ) + (if 2 < m then -3 else 9)) + 2) / 5 + (d : ℤ) - 1
  let doe : ℤ := yoe * 365 + yoe / 4 - yoe / 100 + doy
  era * 146097 + doe - 719468

/-- Split a character list at every occurrence of a separator (the pieces,
without the separator; an empty list yields one empty piece). -/
def splitOnCh (sep : Char) : List Char → List (List Char)
  | [] => [[]]
  | c :: t =>
    let r := splitOnCh sep t
    if c = sep then [] :: r
    else
      match r with
      | h :: t' => (c :: h) :: t'
      | [] => [[c]]

/-- Best-effort date parsing standing for `pd.to_datetime` on a single string:
ISO `YYYY-MM-DD` accepted, everything else fails.  Result is a timestamp in
seconds at midnight of that day. -/
def parseDate (s : String) : Option ℤ :=
  match splitOnCh '-' (stripL s.data) with
  | [ys, ms, ds] =>
    match parseNatDigits ys, parseNatDigits ms, parseNatDigits ds with
    | some y, some m, some d =>
      if 1 ≤ m ∧ m ≤ 12 ∧ 1 ≤ d ∧ d ≤ daysInMonth (y : ℤ) m then
        some (daysFromCivil (y : ℤ) m d * 86400)
      else none
    | _, _, _ => none
  | _ => none

/-- Best-effort numeric parsing standing for `pd.to_numeric` on a single
string: optional sign, decimal digits, optional fraction part. -/
def parseNum (s : String) : Option ℚ :=
  let l := stripL s.data
  let sgn : ℚ := match l with | '-' :: _ => -1 | _ => 1
  let l := match l with | '-' :: t => t | '+' :: t => t | _ => l
  match splitOnCh '.' l with
  | [ip] => (parseNatDigits ip).map (fun n => sgn * (n : ℚ))
  | [ip, fp] =>
    if ip.isEmpty ∧ fp.isEmpty then none
    else
      match (if ip.isEmpty then some 0 else parseNatDigits ip),
            (if fp.isEmpty then some 0 else parseNatDigits fp) with
      | some a, some b => some (sgn * ((a : ℚ) + (b : ℚ) / 10 ^ fp.length))
      | _, _ => none
  | _ => none

/-- `pd.to_datetime(·, errors='coerce')` on one cell: dates kept, parse
failures become NaT (`Value.nan`), numbers are read as nanoseconds since the
epoch; never raises. -/
def toDatetime : Value → Value
  | .date t => .date t
  | .nan => .nan
  | .str s => match parseDate s with | some t => .date t | none => .nan
  | .num q => .date ⌊q / 1000000000⌋

/-- `pd.to_numeric(·, errors='coerce')` on one cell: numbers kept, parse
failures become NaN (`Value.nan`), datetimes become their nanosecond count;
never raises. -/
def toNumeric : Value → Value
  | .num q => .num q
  | .nan => .nan
  | .str s => match parseNum s with | some q => .num q | none => .nan
  | .date t => .num ((t : ℚ) * 1000000000)

/-- `df[name] = df[name].apply(f)`-style column rewrite: apply `f` to the
cells of every column whose label is `name`. -/
def mapCol (df : DF) (name : String) (f : Value → Value) : DF :=
  ⟨df.cols, df.rows.map fun r =>
    List.zipWith (fun c v => if c = name then f v else v) df.cols r⟩

/-- Lines 9-19 of the source: rename every column with `normName`, then coerce
`application_due_date` cells with `pd.to_datetime(errors='coerce')` and
`funding_quantum` cells with `pd.to_numeric(errors='coerce')` when those
columns exist. -/
def normalize_grant_data (df : DF) : DF :=
  let df1 : DF := ⟨df.cols.map normName, df.rows⟩
  let df2 : DF :=
    if "application_due_date" ∈ df1.cols then
      mapCol df1 "application_due_date" toDatetime
    else df1
  let df3 : DF :=
    if "funding_quantum" ∈ df2.cols then
      mapCol df2 "funding_quantum" toNumeric
    else df2
  df3

/-- Python `str(x)` on a cell (NaN prints as `nan`). -/
def pyStr : Value → String
  | .str s => s
  | .nan => "nan"
  | .num q => if q.den = 1 then toString q.num else toString q
  | .date t => toString t

/-- Python `str.lower` (ASCII fragment). -/
def pyLower (s : String) : String :=
  String.mk (s.data.map pyLowerC)

/-- The needle matches at the head of the haystack. -/
def matchesAt : List Char → List Char → Bool
  | [], _ => true
  | _ :: _, [] => false
  | a :: as, b :: bs => a = b && matchesAt as bs

/-- The needle occurs somewhere in the haystack. -/
def hasSub (needle : List Char) : List Char → Bool
  | [] => matchesAt needle []
  | c :: t => matchesAt needle (c :: t) || hasSub needle t

/-- Python `needle in hay` on strings. -/
def strIn (needle hay : String) : Bool :=
  hasSub needle.data hay.data

/-- Python truthiness of the `issue_area` argument (`None` and `""` are falsy). -/
def truthyS : Option String → Bool
  | none => false
  | some s => !s.isEmpty

/-- Python truthiness of a numeric argument (`None` and `0` are falsy). -/
def truthyQ : Option ℚ → Bool
  | none => false
  | some q => decide (q ≠ 0)

/-- `df.get('funding_quantum', pd.Series([0]*len(df)))` at one row: the cell
when the column exists, the column-level default `0` when it does not. -/
def fundingVal (cols : List String) (row : List Value) : Value :=
  if "funding_quantum" ∈ cols then (cellD cols row "funding_quantum").getD Value.nan
  else .num 0

/-- `df.get('issue_area', pd.Series([""]*len(df)))` at one row. -/
def issueVal (cols : List String) (row : List Value) : Value :=
  if "issue_area" ∈ cols then (cellD cols row "issue_area").getD Value.nan
  else .str ""

/-- Lines 26-28: `1 if issue_area.lower() in str(x).lower() else 0`. -/
def iaPoint (cols : List String) (row : List Value) (crit : String) : ℤ :=
  if strIn (pyLower crit) (pyLower (pyStr (issueVal cols row))) then 1 else 0

/-- Python `x >= m` for a cell against a number: NaN compares false, text or
a timestamp against a number raises `TypeError`. -/
def pyGeB : Value → ℚ → Except String Bool
  | .num q, m => .ok (decide (m ≤ q))
  | .nan, _ => .ok false
  | .str _, _ => .error "TypeError: not supported between str and number"
  | .date _, _ => .error "TypeError: not supported between Timestamp and number"

/-- Python `x <= m`, same conventions as `pyGeB`. -/
def pyLeB : Value → ℚ → Except String Bool
  | .num q, m => .ok (decide (q ≤ m))
  | .nan, _ => .ok false
  | .str _, _ => .error "TypeError: not supported between str and number"
  | .date _, _ => .error "TypeError: not supported between Timestamp and number"

/-- Lines 31-33: `1 if x >= min_funding else 0`. -/
def minPoint (v : Value) (m : ℚ) : Except String ℤ := do
  let b ← pyGeB v m
  pure (if b then 1 else 0)

/-- Lines 36-38: `1 if x <= max_funding else 0`. -/
def maxPoint (v : Value) (m : ℚ) : Except String ℤ := do
  let b ← pyLeB v m
  pure (if b then 1 else 0)

/-- Lines 23-38 at one row: the record's final `relevance_score` (0 plus one
optional point per supplied criterion).  The three criteria act on disjoint
data, so evaluating them row-wise is observationally the column-wise order of
the source. -/
def rowScore (cols : List String) (row : List Value) (ia : Option String)
    (mf xf : Option ℚ) : Except String ℤ :=
  let a : ℤ := if truthyS ia then iaPoint cols row (ia.getD "") else 0
  Except.bind (if truthyQ mf then minPoint (fundingVal cols row) (mf.getD 0) else pure 0)
    fun b =>
      Except.bind (if truthyQ xf then maxPoint (fundingVal cols row) (xf.getD 0) else pure 0)
        fun c => pure (a + b + c)

/-- `df[name] = vals`: overwrite every column labelled `name`, or append a new
column at the right edge when the label is absent. -/
def setCol (df : DF) (name : String) (vals : List Value) : DF :=
  if name ∈ df.cols then
    ⟨df.cols, List.zipWith
      (fun r v => List.zipWith (fun c x => if c = name then v else x) df.cols r)
      df.rows vals⟩
  else
    ⟨df.cols ++ [name], List.zipWith (fun r v => r ++ [v]) df.rows vals⟩

/-- Map a fallible function over a list, aborting at the first error (the
`Series.apply` evaluation order over a column). -/
def mapE {α β : Type} (f : α → Except String β) : List α → Except String (List β)
  | [] => .ok []
  | x :: xs => do
    let y ← f x
    let ys ← mapE f xs
    pure (y :: ys)

/-- Lines 23-38: attach the `relevance_score` column (an integer column, as
in pandas). -/
def scoreRows (df : DF) (ia : Option String) (mf xf : Option ℚ) :
    Except String DF := do
  let scores ← mapE (fun r => rowScore df.cols r ia mf xf) df.rows
  pure (setCol df "relevance_score" (scores.map (fun s : ℤ => Value.num (s : ℚ))))

/-- How many criteria were supplied (truthily), each worth at most one point. -/
def numCriteria (ia : Option String) (mf xf : Option ℚ) : ℤ :=
  (if truthyS ia then 1 else 0) + (if truthyQ mf then 1 else 0) +
    (if truthyQ xf then 1 else 0)

/-- Swap two slots of the index array (`INTP_SWAP`). -/
def aswap (a : Array Nat) (i j : Nat) : Array Nat :=
  let x := a.getD i 0
  let y := a.getD j 0
  (a.setD i y).setD j x

/-- `v[tosort[p]]`: the key at slot `p` of the index array. -/
def vAt (v : Array ℚ) (ts : Array Nat) (p : Nat) : ℚ :=
  v.getD (ts.getD p 0) 0

/-- `do ++pi; while (v[tosort[pi]] < vp)` of numpy's `aquicksort`. -/
def scanUp (v : Array ℚ) (ts : Array Nat) (vp : ℚ) : Nat → Nat → Nat
  | p, 0 => p + 1
  | p, fuel + 1 =>
    let p' := p + 1
    if vAt v ts p' < vp then scanUp v ts vp p' fuel else p'

/-- `do --pj; while (vp < v[tosort[pj]])` of numpy's `aquicksort`. -/
def scanDn (v : Array ℚ) (ts : Array Nat) (vp : ℚ) : Nat → Nat → Nat
  | p, 0 => p - 1
  | p, fuel + 1 =>
    let p' := p - 1
    if vp < vAt v ts p' then scanDn v ts vp p' fuel else p'

/-- The swap loop of the `aquicksort` partition; returns the final `pi`. -/
def partLoop (v : Array ℚ) (vp : ℚ) : Array Nat → Nat → Nat → Nat → Array Nat × Nat
  | ts, p, _, 0 => (ts, p)
  | ts, p, q, fuel + 1 =>
    let p' := scanUp v ts vp p (ts.size + 2)
    let q' := scanDn v ts vp q (ts.size + 2)
    if q' ≤ p' then (ts, p')
    else partLoop v vp (aswap ts p' q') p' q' fuel

/-- One median-of-three Hoare partition of `aquicksort` over slots
`[pl, pr]`; returns the pivot's final slot. -/
def doPart (v : Array ℚ) (ts : Array Nat) (pl pr : Nat) : Array Nat × Nat :=
  let pm := pl + (pr - pl) / 2
  let ts := if vAt v ts pm < vAt v ts pl then aswap ts pm pl else ts
  let ts := if vAt v ts pr < vAt v ts pm then aswap ts pr pm else ts
  let ts := if vAt v ts pm < vAt v ts pl then aswap ts pm pl else ts
  let vp := vAt v ts pm
  let ts := aswap ts pm (pr - 1)
  let (ts2, p) := partLoop v vp ts pl (pr - 1) (ts.size + 2)
  (aswap ts2 p (pr - 1), p)

/-- Inner shift of the `aquicksort` insertion sort; returns the final `pj`. -/
def insShift (v : Array ℚ) (vp : ℚ) (pl : Nat) : Array Nat → Nat → Nat → Array Nat × Nat
  | ts, pj, 0 => (ts, pj)
  | ts, pj, fuel + 1 =>
    if pl < pj ∧ vp < vAt v ts (pj - 1) then
      insShift v vp pl (ts.setD pj (ts.getD (pj - 1) 0)) (pj - 1) fuel
    else (ts, pj)

/-- The insertion sort `aquicksort` runs on slots `[pl, pr]` of a small
partition (at most `SMALL_QUICKSORT = 15` exceeded nowhere). -/
def insLoop (v : Array ℚ) (pl pr : Nat) : Array Nat → Nat → Nat → Array Nat
  | ts, _, 0 => ts
  | ts, p, fuel + 1 =>
    if p ≤ pr then
      let vi := ts.getD p 0
      let vp := v.getD vi 0
      let (ts', pj) := insShift v vp pl ts p (ts.size + 2)
      insLoop v pl pr (ts'.setD pj vi) (p + 1) fuel
    else ts

/-- The sift-down of numpy's `aheapsort` with 1-based slot `k` stored at
`ts[off + k - 1]`; returns the final `i`. -/
def heapSift (v : Array ℚ) (off : Nat) (tmp : Nat) (n : Nat) :
    Array Nat → Nat → Nat → Nat → Array Nat × Nat
  | ts, i, _, 0 => (ts, i)
  | ts, i, j, fuel + 1 =>
    if j ≤ n then
      let j := if j < n ∧ v.getD (ts.getD (off + j - 1) 0) 0 < v.getD (ts.getD (off + j) 0) 0
               then j + 1 else j
      if v.getD tmp 0 < v.getD (ts.getD (off + j - 1) 0) 0 then
        heapSift v off tmp n (ts.setD (off + i - 1) (ts.getD (off + j - 1) 0)) j (j + j) fuel
      else (ts, i)
    else (ts, i)

/-- Heap construction loop of `aheapsort` (`for (l = n >> 1; l > 0; --l)`). -/
def heapBuildLoop (v : Array ℚ) (off n : Nat) : Array Nat → Nat → Nat → Array Nat
  | ts, _, 0 => ts
  | ts, l, fuel + 1 =>
    if 0 < l then
      let tmp := ts.getD (off + l - 1) 0
      let (ts', i) := heapSift v off tmp n ts l (l + l) (n + 2)
      heapBuildLoop v off n (ts'.setD (off + i - 1) tmp) (l - 1) fuel
    else ts

/-- Extraction loop of `aheapsort` (`for (; n > 1;)`). -/
def heapExtractLoop (v : Array ℚ) (off : Nat) : Array Nat → Nat → Nat → Array Nat
  | ts, _, 0 => ts
  | ts, n, fuel + 1 =>
    if 1 < n then
      let tmp := ts.getD (off + n - 1) 0
      let ts := ts.setD (off + n - 1) (ts.getD off 0)
      let n' := n - 1
      let (ts', i) := heapSift v off tmp n' ts 1 2 (n' + 2)
      heapExtractLoop v off (ts'.setD (off + i - 1) tmp) n' fuel
    else ts

/-- numpy's `aheapsort` on slots `[pl, pr]`, the introsort depth-limit
fallback. -/
def aheapsort (v : Array ℚ) (ts : Array Nat) (pl pr : Nat) : Array Nat :=
  let n := pr + 1 - pl
  let ts := heapBuildLoop v pl n ts (n / 2) (n + 2)
  heapExtractLoop v pl ts n (n + 2)

/-- The outer stack machine of numpy's `aquicksort` (npysort introsort):
partitions while the segment is longer than `SMALL_QUICKSORT = 15`, pushes
the larger side, falls back to `aheapsort` when the depth budget is spent,
and insertion-sorts small segments.  Fuel-bounded; the fuel supplied by
`npArgsort` covers every partition and pop. -/
def aqsLoop (v : Array ℚ) : Array Nat → Nat → Nat → List (Nat × Nat) → ℤ → Nat → Array Nat
  | ts, _, _, _, _, 0 => ts
  | ts, pl, pr, stack, depth, fuel + 1 =>
    if 15 < pr - pl then
      let depth' := depth - 1
      if depth < 0 then
        let ts := aheapsort v ts pl pr
        match stack with
        | [] => ts
        | (pl', pr') :: st => aqsLoop v ts pl' pr' st depth' fuel
      else
        let (ts', p) := doPart v ts pl pr
        if p - pl < pr - p then
          aqsLoop v ts' pl (p - 1) ((p + 1, pr) :: stack) depth' fuel
        else
          aqsLoop v ts' (p + 1) pr ((pl, p - 1) :: stack) depth' fuel
    else
      let ts := insLoop v pl pr ts (pl + 1) (ts.size + 2)
      match stack with
      | [] => ts
      | (pl', pr') :: st => aqsLoop v ts pl' pr' st depth fuel

/-- `np.argsort(keys, kind='quicksort')`: numpy's introspective quicksort over
an index array, depth budget `2 * floor(log2 n)`.  It is not a stable sort. -/
def npArgsort (keys : List ℚ) : List Nat :=
  let n := keys.length
  let v : Array ℚ := keys.toArray
  let ts : Array Nat := (List.range n).toArray
  (aqsLoop v ts 0 (n - 1) [] ((Nat.log2 n : ℤ) * 2) (4 * n + 8)).toList

/-- pandas `nargsort(keys, kind='quicksort', ascending=False)` for keys
without NaN (relevance scores never are): reverse the keys and the index,
argsort, index, reverse. -/
def nargsortDesc (keys : List ℚ) : List Nat :=
  let n := keys.length
  let order := npArgsort keys.reverse
  (order.filterMap (fun i => ((List.range n).reverse).get? i)).reverse

/-- The sort key of line 40: the row's `relevance_score` cell (always a
number there, since line 23 just wrote the column). -/
def keyOf (cols : List String) (row : List Value) : ℚ :=
  match cellD cols row "relevance_score" with
  | some (.num q) => q
  | _ => 0

/-- Line 40: `df.sort_values(by='relevance_score', ascending=False)` with the
default `kind='quicksort'`. -/
def sort_values (df : DF) : DF :=
  let idx := nargsortDesc (df.rows.map (keyOf df.cols))
  ⟨df.cols, idx.filterMap (fun i => df.rows.get? i)⟩

/-- Lines 21-40: score every record, then reorder by descending score. -/
def evaluate_relevance (df : DF) (ia : Option String) (mf xf : Option ℚ) :
    Except String DF := do
  let scored ← scoreRows df ia mf xf
  pure (sort_values scored)

/-- The alert text of line 50:
`f"Reminder: '{row['grant_name']}' is due in {days_left} day(s)!"`. -/
def mkAlert (nameV : Value) (days : ℤ) : String :=
  "Reminder: '" ++ pyStr nameV ++ "' is due in " ++ toString days ++ " day(s)!"

/-- Lines 47-50 at one row: skip when the due cell is absent or NaT, raise
TypeError when a non-datetime cell is subtracted from `today`, otherwise
compute `days_left = (due - today).days` (flooring) and, inside the window,
format the alert — raising KeyError when `grant_name` is not a label. -/
def rowAlert (today : ℤ) (cols : List String) (row : List Value) :
    Except String (Option String) :=
  match cellD cols row "application_due_date" with
  | none => .ok none
  | some .nan => .ok none
  | some (.date d) =>
    let days := Int.fdiv (d - today) 86400
    if 0 ≤ days ∧ days ≤ 7 then
      match cellD cols row "grant_name" with
      | some v => .ok (some (mkAlert v days))
      | none => .error "KeyError: 'grant_name'"
    else .ok none
  | some (.str _) => .error "TypeError: unsupported operand types for subtraction"
  | some (.num _) => .error "TypeError: unsupported operand types for subtraction"

/-- The `for _, row in df.iterrows()` loop of lines 44-51, accumulating
alerts in row order; an exception aborts the whole call. -/
def alertsGo (today : ℤ) (cols : List String) : List (List Value) → Except String (List String)
  | [] => .ok []
  | r :: rs => do
    let a ← rowAlert today cols r
    let rest ← alertsGo today cols rs
    match a with
    | some s => pure (s :: rest)
    | none => pure rest

/-- Lines 42-51, with the table threaded through as state: the loop only
reads `df`, so the table comes back with the alert list.  `today` is the
wall-clock timestamp `datetime.today()` (seconds), injected as a parameter. -/
def generate_alertsSt (today : ℤ) (df : DF) : Except String (List String) × DF :=
  (alertsGo today df.cols df.rows, df)

/-- The alert list of `generate_alerts` (lines 42-51). -/
def generate_alerts (today : ℤ) (df : DF) : Except String (List String) :=
  (generate_alertsSt today df).1

/-- Equality of `Except` results is decidable componentwise. -/
instance exceptDecEq {ε α : Type} [DecidableEq ε] [DecidableEq α] : DecidableEq (Except ε α)
  | .error e, .error f => decidable_of_iff (e = f) (by simp)
  | .error _, .ok _ => isFalse (by simp)
  | .ok _, .error _ => isFalse (by simp)
  | .ok a, .ok b => decidable_of_iff (a = b) (by simp)


/-- A 17-record table whose records all score 0 under empty criteria. -/
def dfTie : DF := ⟨["grant_name"], (List.range 17).map (fun i => [Value.str (toString i)])⟩

/-- The order in which `sort_values` returns the 17 tied records: the fixed
non-identity permutation numpy's introspective quicksort applies to 17 equal
keys (17 is the smallest count that leaves the stable insertion-sort path). -/
def tiePerm : List Nat := [0, 9, 15, 14, 13, 12, 11, 10, 8, 1, 7, 6, 5, 4, 3, 2, 16]

/-- `dfTie` as `evaluate_relevance` returns it: scored 0 everywhere, rows in
`tiePerm` order. -/
def dfTieOut : DF := ⟨["grant_name", "relevance_score"],
  tiePerm.map (fun i => [Value.str (toString i), Value.num 0])⟩

/-- `dfTie` after scoring and before sorting: scored 0 everywhere, rows still
in their original order. -/
def dfTieScored : DF := ⟨["grant_name", "relevance_score"],
  (List.range 17).map (fun i => [Value.str (toString i), Value.num 0])⟩


/-- Spec-side substring relation: the needle occurs contiguously in the hay. -/
def SpecContains (hay needle : String) : Prop :=
  ∃ pre post : String, hay = pre ++ needle ++ post

/-- The due cell (when present) is a date or the no-value marker — the shape
`normalize_grant_data` leaves and the only one `generate_alerts` subtracts
without a TypeError. -/
def dueWellTyped (cols : List String) (row : List Value) : Bool :=
  match cellD cols row "application_due_date" with
  | some (Value.str _) => false
  | some (Value.num _) => false
  | _ => true

/-- Claim-side qualification: the record carries a valid (non-missing) due
date whose whole-day distance from `today` lies in the inclusive 0..7
window. -/
def qualifies (today : ℤ) (cols : List String) (row : List Value) : Bool :=
  match cellD cols row "application_due_date" with
  | some (Value.date d) =>
    decide (0 ≤ Int.fdiv (d - today) 86400 ∧ Int.fdiv (d - today) 86400 ≤ 7)
  | _ => false

/-- The alert text a qualifying record produces. -/
def windowAlert (today : ℤ) (cols : List String) (row : List Value) : String :=
  match cellD cols row "application_due_date" with
  | some (Value.date d) =>
    mkAlert ((cellD cols row "grant_name").getD Value.nan) (Int.fdiv (d - today) 86400)
  | _ => ""

/-- Boundary table: records due today, in 7 days, in 8 days, and undated. -/
def dfWin : DF := ⟨["grant_name", "application_due_date"],
  [[Value.str "A", Value.date 0], [Value.str "B", Value.date 604800],
   [Value.str "C", Value.date 691200], [Value.str "D", Value.nan]]⟩

/-- C2, counterexample.  The claim says the reorder of `evaluate_relevance` is
a stable descending sort: two records with equal score retain their relative
pre-sort order.  On a 17-record table in which every record scores 0 (no
criteria supplied), the records come back permuted: records `"1"` and `"9"`
are tied, `"1"` precedes `"9"` in the input, yet the output holds `"9"` at
position 1 and `"1"` at position 9 — `sort_values` uses pandas' default
`kind='quicksort'` (numpy introsort), which is not stable. -/
theorem sort_ties_permuted_cex :
    evaluate_relevance dfTie none none none = .ok dfTieOut ∧
    (∀ r ∈ dfTieOut.rows, cellD dfTieOut.cols r "relevance_score" = some (Value.num 0)) ∧
    dfTieOut.rows.get? 1 = some [Value.str "9", Value.num 0] ∧
    dfTieOut.rows.get? 9 = some [Value.str "1", Value.num 0] := by
  refine ⟨by decide, by decide, rfl, rfl⟩

/-- C2, amended.  The final reordering sorts the table by `relevance_score`
in descending order and returns a permutation of the scored records, but it
is not stable: equally-scored records can come back in a different relative
order (numpy's introspective quicksort permutes any run of 17 tied keys by
`tiePerm`; only segments short enough for its insertion sort, at most 16
slots, keep their order). -/
theorem sort_descending_unstable_amended :
    scoreRows dfTie none none none = .ok dfTieScored ∧
    sort_values dfTieScored = dfTieOut ∧
    dfTieOut.rows.Perm dfTieScored.rows ∧
    (dfTieOut.rows.map (keyOf dfTieOut.cols)).Sorted (· ≥ ·) ∧
    dfTieOut.rows ≠ dfTieScored.rows := by
  refine ⟨by decide, by decide, by decide, by decide, by decide⟩

/-- C3, counterexample.  The claim says a record whose `funding_quantum`
carries the no-value marker earns the `max_funding` point whenever a non-zero
`max_funding` is supplied.  In the code the NaN cell fails `x <= max_funding`
(NaN comparisons are false), so the record scores 0, not 1. -/
theorem nan_funding_no_max_point_cex :
    evaluate_relevance ⟨["funding_quantum"], [[Value.nan]]⟩ none none (some 100) =
      .ok ⟨["funding_quantum", "relevance_score"], [[Value.nan, Value.num 0]]⟩ := by
  decide

/-- C9, counterexample.  The claim says a record with a missing `issue_area`
value is treated as empty text and never matches.  In the code a NaN cell in
an existing `issue_area` column is stringified as `"nan"`, so the criterion
`"an"` matches it and the record scores 1. -/
theorem nan_issue_area_matches_cex :
    evaluate_relevance ⟨["issue_area"], [[Value.nan]]⟩ (some "an") none none =
      .ok ⟨["issue_area", "relevance_score"], [[Value.nan, Value.num 1]]⟩ := by
  decide

/-- C5, counterexample.  The claim says a record lacking `grant_name` but due
within the window yields a per-record error while the batch continues.  In
the code, when no `grant_name` column exists, `row['grant_name']` raises a
KeyError that aborts the whole call — here both records are due today, and
no alert for either survives. -/
theorem missing_grant_name_aborts_cex :
    generate_alerts 0 ⟨["application_due_date"], [[Value.date 0], [Value.date 0]]⟩ =
      .error "KeyError: 'grant_name'" := by
  decide

/-- C5, amended.  A qualifying record without `grant_name` either aborts the
whole batch (KeyError, when the column is absent altogether — first
conjunct) or is reported as no error at all: when the column exists and the
record's cell is missing, an alert quoting `'nan'` is emitted and the other
records' alerts still appear (second conjunct). -/
theorem missing_grant_name_behaviour :
    generate_alerts 0 ⟨["application_due_date"], [[Value.date 0], [Value.date 0]]⟩ =
      .error "KeyError: 'grant_name'" ∧
    generate_alerts 0 ⟨["grant_name", "application_due_date"],
      [[Value.nan, Value.date 0], [Value.str "G", Value.date 0]]⟩ =
      .ok ["Reminder: 'nan' is due in 0 day(s)!", "Reminder: 'G' is due in 0 day(s)!"] := by
  exact ⟨by decide, by decide⟩

/-- C4.  Supplying `min_funding = 0` or `max_funding = 0` is indistinguishable
from not supplying the bound: `if min_funding:` / `if max_funding:` treat 0
as falsy, so a zero bound contributes no point and the scorer's result is
identical to the unsupplied call. -/
theorem zero_bound_acts_unsupplied (df : DF) (ia : Option String) (mf xf : Option ℚ) :
    evaluate_relevance df ia (some 0) xf = evaluate_relevance df ia none xf ∧
    evaluate_relevance df ia mf (some 0) = evaluate_relevance df ia mf none := by
  constructor <;> simp [evaluate_relevance, scoreRows, rowScore, truthyQ]

/-- C10.  `generate_alerts` is read-only on the table: the loop of lines
44-51 only reads rows and appends to its local alert list, so the table
component of the state-passing embedding is returned exactly as given. -/
theorem generate_alerts_reads_only (today : ℤ) (df : DF) :
    (generate_alertsSt today df).2 = df := rfl

/-- `idxOfName` returns an index holding the requested label. -/
theorem idxOfName_get (name : String) :
    ∀ {cols : List String} {i : Nat}, idxOfName name cols = some i → cols.get? i = some name := by
  intro cols
  induction cols with
  | nil => intro i h; simp [idxOfName] at h
  | cons c t ih =>
    intro i h
    by_cases hc : c = name
    · simp [idxOfName, hc] at h
      subst h
      simp [hc]
    · simp [idxOfName, hc] at h
      obtain ⟨j, hj, rfl⟩ := h
      simpa using ih hj

/-- `idxOfName` fails exactly on absent labels. -/
theorem idxOfName_eq_none (name : String) :
    ∀ {cols : List String}, idxOfName name cols = none ↔ name ∉ cols := by
  intro cols
  induction cols with
  | nil => simp [idxOfName]
  | cons c t ih =>
    by_cases hc : c = name
    · simp [idxOfName, hc]
    · have hc' : ¬ (name = c) := fun hh => hc hh.symm
      simp [idxOfName, hc, ih, hc']

/-- Appending a fresh label puts it at index `cols.length`. -/
theorem idxOfName_append_self (name : String) :
    ∀ {cols : List String}, name ∉ cols → idxOfName name (cols ++ [name]) = some cols.length := by
  intro cols
  induction cols with
  | nil => intro _; simp [idxOfName]
  | cons c t ih =>
    intro h
    have hc : ¬ (c = name) := fun hh => h (by simp [hh])
    have ht : name ∉ t := fun hh => h (by simp [hh])
    simp [idxOfName, hc, ih ht]

/-- A successful cell lookup means the label is a column. -/
theorem cellD_some_mem {cols : List String} {row : List Value} {name : String} {v : Value}
    (h : cellD cols row name = some v) : name ∈ cols := by
  unfold cellD at h
  cases h' : idxOfName name cols with
  | none => rw [h'] at h; simp at h
  | some i => exact List.get?_mem (idxOfName_get name h')

/-- C3, amended.  A record whose `funding_quantum` cell carries the no-value
marker earns neither threshold point: NaN fails both `>=` and `<=`.  Only
when the `funding_quantum` column is absent from the table does the scorer
substitute 0, which fails a positive `min_funding` and passes a non-negative
`max_funding`. -/
theorem funding_nan_vs_absent (cols : List String) (row : List Value) (m M : ℚ) :
    (cellD cols row "funding_quantum" = some Value.nan →
      minPoint (fundingVal cols row) m = .ok 0 ∧ maxPoint (fundingVal cols row) M = .ok 0) ∧
    ("funding_quantum" ∉ cols →
      minPoint (fundingVal cols row) m = .ok (if m ≤ 0 then 1 else 0) ∧
      maxPoint (fundingVal cols row) M = .ok (if 0 ≤ M then 1 else 0)) := by
  constructor
  · intro h
    have hmem := cellD_some_mem h
    simp [fundingVal, hmem, h, minPoint, maxPoint, pyGeB, pyLeB, Except.bind]
  · intro h
    simp [fundingVal, h, minPoint, maxPoint, pyGeB, pyLeB, Except.bind]

/-- Witness for C3's amended theorem: a NaN funding cell earns neither point
even with positive thresholds, while an absent column passes `max_funding`. -/
theorem funding_nan_vs_absent_witness :
    minPoint (fundingVal ["funding_quantum"] [Value.nan]) 100 = .ok 0 ∧
    maxPoint (fundingVal ["funding_quantum"] [Value.nan]) 200 = .ok 0 ∧
    maxPoint (fundingVal ["grant_name"] [Value.str "G"]) 200 = .ok 1 := by
  have h1 := funding_nan_vs_absent ["funding_quantum"] [Value.nan] 100 200
  have h2 := funding_nan_vs_absent ["grant_name"] [Value.str "G"] 100 200
  obtain ⟨ha, hb⟩ := h1.1 (by decide)
  have hc := (h2.2 (by decide)).2
  refine ⟨ha, hb, ?_⟩
  rw [hc]
  decide

/-- A head match is exactly a prefix decomposition. -/
theorem matchesAt_iff (n : List Char) :
    ∀ h : List Char, matchesAt n h = true ↔ ∃ rest, h = n ++ rest := by
  induction n with
  | nil => intro h; simp [matchesAt]
  | cons a as ih =>
    intro h
    cases h with
    | nil => simp [matchesAt]
    | cons b bs =>
      simp only [matchesAt, Bool.and_eq_true, decide_eq_true_eq, ih bs, List.cons_append,
        List.cons.injEq]
      constructor
      · rintro ⟨rfl, rest, rfl⟩; exact ⟨rest, rfl, rfl⟩
      · rintro ⟨rest, h1, h2⟩; exact ⟨h1.symm, rest, h2⟩

/-- `hasSub` is exactly a contiguous-occurrence decomposition. -/
theorem hasSub_iff (n : List Char) :
    ∀ h : List Char, hasSub n h = true ↔ ∃ p q, h = p ++ n ++ q := by
  intro h
  induction h with
  | nil =>
    simp only [hasSub, matchesAt_iff]
    constructor
    · rintro ⟨rest, hr⟩
      exact ⟨[], rest, by simpa using hr⟩
    · rintro ⟨p, q, hpq⟩
      have h3 := hpq.symm
      rw [List.append_assoc] at h3
      have hp := List.append_eq_nil.mp h3
      have hn := List.append_eq_nil.mp hp.2
      exact ⟨[], by simp [hn.1]⟩
  | cons c t ih =>
    simp only [hasSub, Bool.or_eq_true, matchesAt_iff, ih]
    constructor
    · rintro (⟨rest, hr⟩ | ⟨p, q, hpq⟩)
      · exact ⟨[], rest, by simpa using hr⟩
      · exact ⟨c :: p, q, by simp [hpq]⟩
    · rintro ⟨p, q, hpq⟩
      cases p with
      | nil => exact Or.inl ⟨q, by simpa using hpq⟩
      | cons d p' =>
        simp only [List.cons_append, List.cons.injEq, List.append_assoc] at hpq
        exact Or.inr ⟨p', q, by simp [hpq.2]⟩

/-- Python `in` agrees with the spec-side substring relation. -/
theorem strIn_iff (n h : String) : strIn n h = true ↔ SpecContains h n := by
  unfold strIn SpecContains
  rw [hasSub_iff]
  constructor
  · rintro ⟨p, q, hpq⟩
    refine ⟨String.mk p, String.mk q, String.ext ?_⟩
    simp [String.data_append, hpq]
  · rintro ⟨pre, post, heq⟩
    refine ⟨pre.data, post.data, ?_⟩
    have := congrArg String.data heq
    simpa [String.data_append] using this

/-- C9, amended.  With a non-empty `issue_area` criterion supplied, a record
earns the issue-area point exactly when the lower-cased text of its
`issue_area` field contains the lower-cased criterion as a substring (and
with only this criterion supplied, that point is the whole score).  A record
whose `issue_area` column is absent is treated as empty text; but a missing
value (no-value marker) in an existing column is stringified as `"nan"`, so
criteria that are substrings of `"nan"` spuriously match it. -/
theorem issue_point_characterization (cols : List String) (row : List Value) (s : String)
    (h : truthyS (some s) = true) :
    rowScore cols row (some s) none none = .ok (iaPoint cols row s) ∧
    (iaPoint cols row s = 1 ↔
      SpecContains (pyLower (pyStr (issueVal cols row))) (pyLower s)) ∧
    ("issue_area" ∉ cols → issueVal cols row = Value.str "") ∧
    (cellD cols row "issue_area" = some Value.nan → pyStr (issueVal cols row) = "nan") := by
  refine ⟨?_, ?_, ?_, ?_⟩
  · simp [rowScore, h, truthyQ, Bind.bind, Except.bind, pure, Except.pure]
  · rw [← strIn_iff]
    unfold iaPoint
    split
    · simp_all
    · simp_all
  · intro hn; simp [issueVal, hn]
  · intro hcell
    have hmem := cellD_some_mem hcell
    simp [issueVal, hmem, hcell, pyStr]

/-- Witness for C9's amended theorem: `"sport"` matches `"Sport"`
case-insensitively and is the record's whole score. -/
theorem issue_point_characterization_witness :
    truthyS (some "sport") = true ∧
    rowScore ["issue_area"] [Value.str "Sport"] (some "sport") none none = .ok 1 := by
  refine ⟨by decide, ?_⟩
  have h := issue_point_characterization ["issue_area"] [Value.str "Sport"] "sport" (by decide)
  rw [h.1]
  decide

/-- The alert loop, characterized: over rows whose `grant_name` resolves and
whose due cells are well typed, it returns exactly one alert per qualifying
record, in row order. -/
theorem alertsGo_window (today : ℤ) (cols : List String) :
    ∀ rows : List (List Value),
    (∀ r ∈ rows, (cellD cols r "grant_name").isSome = true) →
    (∀ r ∈ rows, dueWellTyped cols r = true) →
    alertsGo today cols rows = .ok (rows.filterMap (fun r =>
      if qualifies today cols r then some (windowAlert today cols r) else none)) := by
  intro rows
  induction rows with
  | nil => intro _ _; simp [alertsGo]
  | cons r rs ih =>
    intro hname hdue
    have hn := hname r (by simp)
    have hd := hdue r (by simp)
    have ihh := ih (fun x hx => hname x (by simp [hx])) (fun x hx => hdue x (by simp [hx]))
    unfold alertsGo rowAlert
    cases hcell : cellD cols r "application_due_date" with
    | none =>
      simp [Bind.bind, Except.bind, ihh, qualifies, hcell, pure, Except.pure]
    | some v =>
      cases v with
      | nan => simp [Bind.bind, Except.bind, ihh, qualifies, hcell, pure, Except.pure]
      | str s => simp [dueWellTyped, hcell] at hd
      | num q => simp [dueWellTyped, hcell] at hd
      | date d =>
        by_cases hw : 0 ≤ Int.fdiv (d - today) 86400 ∧ Int.fdiv (d - today) 86400 ≤ 7
        · cases hg : cellD cols r "grant_name" with
          | none => rw [hg] at hn; simp at hn
          | some g =>
            simp [Bind.bind, Except.bind, ihh, qualifies, windowAlert, hcell, hg, hw,
              pure, Except.pure]
        · simp [Bind.bind, Except.bind, ihh, qualifies, hcell, hw, pure, Except.pure]

/-- C1.  For a table whose records name their grant and whose due cells are
dates or missing (as normalization leaves them), `generate_alerts` emits an
alert for a record exactly when the record has a valid (non-missing) due
date with `days_left = (due - today).days` in the inclusive window
`0 ≤ days_left ≤ 7`, one alert per qualifying record in row order; in
particular `days_left = 0` and `days_left = 7` alert, `days_left = 8` does
not. -/
theorem generate_alerts_window_iff (today : ℤ) (df : DF)
    (hname : ∀ r ∈ df.rows, (cellD df.cols r "grant_name").isSome = true)
    (hdue : ∀ r ∈ df.rows, dueWellTyped df.cols r = true) :
    generate_alerts today df = .ok (df.rows.filterMap (fun r =>
      if qualifies today df.cols r then some (windowAlert today df.cols r) else none)) :=
  alertsGo_window today df.cols df.rows hname hdue

/-- Witness for C1: due today and due in 7 days alert, due in 8 days and an
undated record do not. -/
theorem generate_alerts_window_iff_witness :
    generate_alerts 0 dfWin =
      .ok ["Reminder: 'A' is due in 0 day(s)!", "Reminder: 'B' is due in 7 day(s)!"] := by
  have h := generate_alerts_window_iff 0 dfWin (by decide) (by decide)
  rw [h]
  decide

/-- A successful `mapE` run pairs every output with its input. -/
theorem mapE_ok_get {α β : Type} (f : α → Except String β) :
    ∀ {xs : List α} {ys : List β}, mapE f xs = .ok ys →
      ∀ {i : Nat} {y : β}, ys.get? i = some y → ∃ x, xs.get? i = some x ∧ f x = .ok y := by
  intro xs
  induction xs with
  | nil =>
    intro ys h i y hy
    simp [mapE] at h
    subst h
    simp at hy
  | cons x xs ih =>
    intro ys h i y hy
    unfold mapE at h
    cases hx : f x with
    | error e => rw [hx] at h; simp [Bind.bind, Except.bind] at h
    | ok b =>
      rw [hx] at h
      cases hrest : mapE f xs with
      | error e => rw [hrest] at h; simp [Bind.bind, Except.bind] at h
      | ok bs =>
        rw [hrest] at h
        simp [Bind.bind, Except.bind, pure, Except.pure] at h
        subst h
        cases i with
        | zero => rw [List.get?_cons_zero] at hy; cases hy; exact ⟨x, rfl, hx⟩
        | succ j =>
          rw [List.get?_cons_succ] at hy
          obtain ⟨x', hx', hfx'⟩ := ih hrest hy
          exact ⟨x', by simpa using hx', hfx'⟩

/-- A minimum-funding point is 0 or 1. -/
theorem minPoint_ok {v : Value} {m : ℚ} {s : ℤ} (h : minPoint v m = .ok s) : s = 0 ∨ s = 1 := by
  unfold minPoint at h
  cases hb : pyGeB v m with
  | error e => rw [hb] at h; simp [Bind.bind, Except.bind] at h
  | ok b =>
    rw [hb] at h
    simp [Bind.bind, Except.bind, pure, Except.pure] at h
    cases b <;> simp_all

/-- A maximum-funding point is 0 or 1. -/
theorem maxPoint_ok {v : Value} {m : ℚ} {s : ℤ} (h : maxPoint v m = .ok s) : s = 0 ∨ s = 1 := by
  unfold maxPoint at h
  cases hb : pyLeB v m with
  | error e => rw [hb] at h; simp [Bind.bind, Except.bind] at h
  | ok b =>
    rw [hb] at h
    simp [Bind.bind, Except.bind, pure, Except.pure] at h
    cases b <;> simp_all

/-- The issue-area point is 0 or 1. -/
theorem iaPoint_bounds (cols : List String) (row : List Value) (s : String) :
    0 ≤ iaPoint cols row s ∧ iaPoint cols row s ≤ 1 := by
  unfold iaPoint
  split <;> simp

/-- A successful row score splits into its three criterion points. -/
theorem rowScore_ok_decomp {cols : List String} {row : List Value} {ia : Option String}
    {mf xf : Option ℚ} {s : ℤ} (h : rowScore cols row ia mf xf = .ok s) :
    ∃ b c : ℤ,
      (if truthyQ mf then minPoint (fundingVal cols row) (mf.getD 0) else pure 0) = .ok b ∧
      (if truthyQ xf then maxPoint (fundingVal cols row) (xf.getD 0) else pure 0) = .ok c ∧
      s = (if truthyS ia then iaPoint cols row (ia.getD "") else 0) + b + c := by
  unfold rowScore at h
  cases hbm : (if truthyQ mf then minPoint (fundingVal cols row) (mf.getD 0)
      else pure 0 : Except String ℤ) with
  | error e => rw [hbm] at h; simp [Except.bind] at h
  | ok b =>
    rw [hbm] at h
    cases hbx : (if truthyQ xf then maxPoint (fundingVal cols row) (xf.getD 0)
        else pure 0 : Except String ℤ) with
    | error e => rw [hbx] at h; simp [Except.bind] at h
    | ok c =>
      rw [hbx] at h
      simp [Except.bind, pure, Except.pure] at h
      exact ⟨b, c, rfl, rfl, h.symm⟩

/-- A successful row score is between 0 and the number of supplied criteria. -/
theorem rowScore_ok_bounds {cols : List String} {row : List Value} {ia : Option String}
    {mf xf : Option ℚ} {s : ℤ} (h : rowScore cols row ia mf xf = .ok s) :
    0 ≤ s ∧ s ≤ numCriteria ia mf xf ∧ (numCriteria ia mf xf = 0 → s = 0) := by
  obtain ⟨b, c, hb, hc, rfl⟩ := rowScore_ok_decomp h
  have hbb : 0 ≤ b ∧ b ≤ (if truthyQ mf then (1:ℤ) else 0) := by
    by_cases hmf : truthyQ mf
    · rw [if_pos hmf] at hb
      rw [if_pos hmf]
      rcases minPoint_ok hb with rfl | rfl <;> omega
    · rw [if_neg hmf] at hb
      rw [if_neg hmf]
      have : (0:ℤ) = b := by simpa [pure, Except.pure] using hb
      omega
  have hcc : 0 ≤ c ∧ c ≤ (if truthyQ xf then (1:ℤ) else 0) := by
    by_cases hxf : truthyQ xf
    · rw [if_pos hxf] at hc
      rw [if_pos hxf]
      rcases maxPoint_ok hc with rfl | rfl <;> omega
    · rw [if_neg hxf] at hc
      rw [if_neg hxf]
      have : (0:ℤ) = c := by simpa [pure, Except.pure] using hc
      omega
  have ha := iaPoint_bounds cols row (ia.getD "")
  have haa : 0 ≤ (if truthyS ia then iaPoint cols row (ia.getD "") else 0) ∧
      (if truthyS ia then iaPoint cols row (ia.getD "") else 0) ≤
        (if truthyS ia then (1:ℤ) else 0) := by
    by_cases hia : truthyS ia
    · rw [if_pos hia, if_pos hia]; omega
    · rw [if_neg hia, if_neg hia]; omega
  unfold numCriteria
  omega

/-- Rows of `setCol` come from a row of the table and the written value. -/
theorem setCol_rows_mem (df : DF) (name : String) (vals : List Value) (i : Nat) (r : List Value)
    (hi : (setCol df name vals).rows.get? i = some r) :
    ∃ row v, df.rows.get? i = some row ∧ vals.get? i = some v ∧
      ((name ∈ df.cols ∧ r = List.zipWith (fun c x => if c = name then v else x) df.cols row) ∨
       (name ∉ df.cols ∧ r = row ++ [v])) := by
  unfold setCol at hi
  by_cases hmem : name ∈ df.cols
  · rw [if_pos hmem] at hi
    dsimp only at hi
    rw [List.get?_zipWith_eq_some] at hi
    obtain ⟨row, v, h1, h2, h3⟩ := hi
    exact ⟨row, v, h1, h2, Or.inl ⟨hmem, h3.symm⟩⟩
  · rw [if_neg hmem] at hi
    dsimp only at hi
    rw [List.get?_zipWith_eq_some] at hi
    obtain ⟨row, v, h1, h2, h3⟩ := hi
    exact ⟨row, v, h1, h2, Or.inr ⟨hmem, h3.symm⟩⟩

/-- In a rectangular table, the written column is readable back by label. -/
theorem setCol_cell (df : DF) (name : String) (vals : List Value) {i : Nat} {r : List Value}
    (hrect : Rect df) (hi : (setCol df name vals).rows.get? i = some r) :
    ∃ v, vals.get? i = some v ∧ cellD (setCol df name vals).cols r name = some v := by
  obtain ⟨row, v, hrow, hv, hcase⟩ := setCol_rows_mem df name vals i r hi
  have hlen : row.length = df.cols.length := hrect row (List.get?_mem hrow)
  rcases hcase with ⟨hmem, rfl⟩ | ⟨hmem, rfl⟩
  · obtain ⟨i0, hi0⟩ : ∃ i0, idxOfName name df.cols = some i0 := by
      cases h0 : idxOfName name df.cols with
      | none => exact absurd hmem ((idxOfName_eq_none name).mp h0)
      | some j => exact ⟨j, rfl⟩
    have hget := idxOfName_get name hi0
    obtain ⟨hlt, -⟩ := List.get?_eq_some.mp hget
    have hlt' : i0 < row.length := by omega
    obtain ⟨x, hx⟩ : ∃ x, row.get? i0 = some x := ⟨row.get ⟨i0, hlt'⟩, List.get?_eq_get hlt'⟩
    refine ⟨v, hv, ?_⟩
    have hcols : (setCol df name vals).cols = df.cols := by unfold setCol; rw [if_pos hmem]
    rw [hcols]
    unfold cellD
    rw [hi0]
    dsimp only
    rw [List.get?_zipWith', hget, hx]
    simp
  · refine ⟨v, hv, ?_⟩
    have hcols : (setCol df name vals).cols = df.cols ++ [name] := by
      unfold setCol; rw [if_neg hmem]
    rw [hcols]
    unfold cellD
    rw [idxOfName_append_self name hmem]
    dsimp only
    rw [← hlen, List.get?_concat_length]

/-- A successful scoring pass is `setCol` of the per-row scores. -/
theorem scoreRows_ok_decomp {df : DF} {ia : Option String} {mf xf : Option ℚ} {scored : DF}
    (h : scoreRows df ia mf xf = .ok scored) :
    ∃ scores : List ℤ, mapE (fun r => rowScore df.cols r ia mf xf) df.rows = .ok scores ∧
      scored = setCol df "relevance_score" (scores.map (fun s : ℤ => Value.num (s : ℚ))) := by
  unfold scoreRows at h
  cases hm : mapE (fun r => rowScore df.cols r ia mf xf) df.rows with
  | error e => rw [hm] at h; simp [Bind.bind, Except.bind] at h
  | ok scores =>
    rw [hm] at h
    simp [Bind.bind, Except.bind, pure, Except.pure] at h
    exact ⟨scores, rfl, h.symm⟩

/-- C8.  After a successful scoring pass on a rectangular table, every
record of the returned table carries a `relevance_score` with
`0 <= relevance_score <= number of criteria supplied` (each truthily
supplied criterion contributing at most one point), and with no criteria
supplied every score is 0. -/
theorem relevance_score_bounds (df : DF) (ia : Option String) (mf xf : Option ℚ) (out : DF)
    (hrect : Rect df) (h : evaluate_relevance df ia mf xf = .ok out) :
    ∀ r ∈ out.rows, ∃ s : ℤ,
      cellD out.cols r "relevance_score" = some (Value.num (s : ℚ)) ∧
      0 ≤ s ∧ s ≤ numCriteria ia mf xf ∧ (numCriteria ia mf xf = 0 → s = 0) := by
  obtain ⟨scored, hs, rfl⟩ : ∃ scored, scoreRows df ia mf xf = .ok scored ∧
      out = sort_values scored := by
    unfold evaluate_relevance at h
    cases hsc : scoreRows df ia mf xf with
    | error e => rw [hsc] at h; simp [Bind.bind, Except.bind] at h
    | ok scored =>
      rw [hsc] at h
      simp [Bind.bind, Except.bind, pure, Except.pure] at h
      exact ⟨scored, rfl, h.symm⟩
  intro r hr
  obtain ⟨i, hi⟩ : ∃ i, scored.rows.get? i = some r := by
    unfold sort_values at hr
    simp only [List.mem_filterMap] at hr
    obtain ⟨j, _, hj⟩ := hr
    exact ⟨j, hj⟩
  obtain ⟨scores, hm, rfl⟩ := scoreRows_ok_decomp hs
  obtain ⟨v, hvv, hcell⟩ := setCol_cell df "relevance_score" _ hrect hi
  obtain ⟨s, hss, rfl⟩ : ∃ s : ℤ, scores.get? i = some s ∧ v = Value.num (s : ℚ) := by
    rw [List.get?_map] at hvv
    cases hsg : scores.get? i with
    | none => rw [hsg] at hvv; simp at hvv
    | some s0 => rw [hsg] at hvv; simp at hvv; exact ⟨s0, rfl, hvv.symm⟩
  obtain ⟨rx, hrx, hfs⟩ := mapE_ok_get _ hm hss
  have hb := rowScore_ok_bounds hfs
  exact ⟨s, hcell, hb.1, hb.2.1, hb.2.2⟩


/-- Witness for C8: one record scored against an issue-area criterion and a
max-funding bound comes back with score 2, inside the bounds. -/
theorem relevance_score_bounds_witness :
    Rect ⟨["issue_area"], [[Value.str "Sport"]]⟩ ∧
    ∀ r ∈ (DF.mk ["issue_area", "relevance_score"] [[Value.str "Sport", Value.num 2]]).rows,
      ∃ s : ℤ,
        cellD ["issue_area", "relevance_score"] r "relevance_score" =
          some (Value.num (s : ℚ)) ∧
        0 ≤ s ∧ s ≤ numCriteria (some "sport") none (some 100) ∧
        (numCriteria (some "sport") none (some 100) = 0 → s = 0) := by
  have hrect : Rect ⟨["issue_area"], [[Value.str "Sport"]]⟩ := by
    intro r hr
    simp at hr
    subst hr
    rfl
  refine ⟨hrect, ?_⟩
  exact relevance_score_bounds ⟨["issue_area"], [[Value.str "Sport"]]⟩ (some "sport") none
    (some 100) ⟨["issue_area", "relevance_score"], [[Value.str "Sport", Value.num 2]]⟩
    hrect (by decide)

/-- A valid scalar value round-trips through `Char.ofNat`. -/
theorem char_toNat_ofNat {n : Nat} (h : n.isValidChar) : (Char.ofNat n).toNat = n := by
  unfold Char.ofNat
  rw [dif_pos h]
  rfl

/-- Scalar value of the lower-cased character. -/
theorem pyLowerC_toNat (c : Char) :
    (pyLowerC c).toNat = if 65 ≤ c.toNat ∧ c.toNat ≤ 90 then c.toNat + 32 else c.toNat := by
  unfold pyLowerC
  by_cases h : 65 ≤ c.toNat ∧ c.toNat ≤ 90
  · rw [if_pos h, if_pos h, char_toNat_ofNat (Or.inl (by omega))]
  · rw [if_neg h, if_neg h]

/-- Non-uppercase characters are fixed by lowering. -/
theorem pyLowerC_eq_self (c : Char) (h : ¬ (65 ≤ c.toNat ∧ c.toNat ≤ 90)) : pyLowerC c = c := by
  unfold pyLowerC
  rw [if_neg h]

/-- Lowering is idempotent. -/
theorem pyLowerC_idem (c : Char) : pyLowerC (pyLowerC c) = pyLowerC c := by
  by_cases h : 65 ≤ c.toNat ∧ c.toNat ≤ 90
  · apply pyLowerC_eq_self
    rw [pyLowerC_toNat, if_pos h]
    omega
  · rw [pyLowerC_eq_self c h]
    exact pyLowerC_eq_self c h

/-- Lowering preserves whitespace-ness. -/
theorem wsb_pyLowerC (c : Char) : wsb (pyLowerC c) = wsb c := by
  unfold wsb
  rw [pyLowerC_toNat]
  by_cases h : 65 ≤ c.toNat ∧ c.toNat ≤ 90
  · rw [if_pos h]
    simp only [decide_eq_decide]
    omega
  · rw [if_neg h]

/-- Replacing spaces keeps non-whitespace non-whitespace. -/
theorem wsb_replS (c : Char) (h : wsb c = false) : wsb (replS c) = false := by
  unfold replS
  by_cases h32 : c.toNat = 32
  · exfalso
    unfold wsb at h
    simp at h
    exact h.1 h32
  · rw [if_neg h32]
    exact h

/-- Space replacement is idempotent. -/
theorem replS_idem (c : Char) : replS (replS c) = replS c := by
  unfold replS
  by_cases h : c.toNat = 32
  · rw [if_pos h, if_neg (by decide)]
  · rw [if_neg h, if_neg h]

/-- The lower-replace image contains no uppercase letters. -/
theorem pyLowerC_replS_pyLowerC (c : Char) :
    pyLowerC (replS (pyLowerC c)) = replS (pyLowerC c) := by
  apply pyLowerC_eq_self
  unfold replS
  by_cases h32 : (pyLowerC c).toNat = 32
  · rw [if_pos h32]
    decide
  · rw [if_neg h32, pyLowerC_toNat]
    by_cases h : 65 ≤ c.toNat ∧ c.toNat ≤ 90
    · rw [if_pos h]; omega
    · rw [if_neg h]; exact h

/-- One character of the rename transform is stable under a second pass. -/
theorem normPt (c : Char) :
    replS (pyLowerC (replS (pyLowerC c))) = replS (pyLowerC c) := by
  rw [pyLowerC_replS_pyLowerC, replS_idem]

/-- Dropping a proper portion never lengthens a list. -/
theorem length_dropWhile_le {α : Type} (p : α → Bool) (l : List α) :
    (List.dropWhile p l).length ≤ l.length := by
  induction l with
  | nil => simp
  | cons c t ih =>
    rw [List.dropWhile_cons]
    by_cases hc : p c
    · rw [if_pos hc]
      simp only [List.length_cons]
      omega
    · rw [if_neg hc]

/-- A list fixed by `dropWhile` has a head failing the test. -/
theorem dropWhile_eq_self_cons {α : Type} {p : α → Bool} {c : α} {t : List α}
    (h : List.dropWhile p (c :: t) = c :: t) : p c = false := by
  by_cases hc : p c
  · rw [List.dropWhile_cons, if_pos hc] at h
    have hlen := length_dropWhile_le p t
    have := congrArg List.length h
    simp at this
    omega
  · simpa using hc

/-- `dropWhile` is idempotent. -/
theorem dropWhile_idem {α : Type} (p : α → Bool) (l : List α) :
    List.dropWhile p (List.dropWhile p l) = List.dropWhile p l := by
  induction l with
  | nil => simp
  | cons c t ih =>
    rw [List.dropWhile_cons]
    by_cases hc : p c
    · rw [if_pos hc]; exact ih
    · rw [if_neg hc, List.dropWhile_cons, if_neg hc]

/-- `dropWhile` stops at a failing head. -/
theorem dropWhile_cons_false {α : Type} {p : α → Bool} (c : α) (t : List α)
    (h : p c = false) : List.dropWhile p (c :: t) = c :: t := by
  simp [List.dropWhile_cons, h]

/-- Mapping a test-preserving function keeps a list `dropWhile`-clean. -/
theorem dropWhile_map_of_clean {α : Type} {p : α → Bool} {f : α → α}
    (hf : ∀ c, p c = false → p (f c) = false) :
    ∀ {l : List α}, List.dropWhile p l = l → List.dropWhile p (l.map f) = l.map f := by
  intro l h
  cases l with
  | nil => simp
  | cons c t =>
    have hc := dropWhile_eq_self_cons h
    simp [List.dropWhile_cons, hf c hc]

/-- `dropWhile` keeps the last element when it keeps anything. -/
theorem getLast?_dropWhile {α : Type} (p : α → Bool) :
    ∀ l : List α, List.dropWhile p l ≠ [] →
      (List.dropWhile p l).getLast? = l.getLast? := by
  intro l
  induction l with
  | nil => simp
  | cons c t ih =>
    intro hne
    rw [List.dropWhile_cons] at hne ⊢
    by_cases hc : p c
    · rw [if_pos hc] at hne ⊢
      rw [ih hne]
      have ht : t ≠ [] := by rintro rfl; simp at hne
      cases t with
      | nil => exact absurd rfl ht
      | cons d u => rw [List.getLast?_cons_cons]
    · rw [if_neg hc]

/-- The reverse of a stripped list has no leading whitespace. -/
theorem stripL_rev_clean (l : List Char) :
    List.dropWhile wsb (stripL l).reverse = (stripL l).reverse := by
  unfold stripL
  rw [List.reverse_reverse]
  exact dropWhile_idem _ _

/-- A stripped list has no leading whitespace. -/
theorem stripL_clean (l : List Char) : List.dropWhile wsb (stripL l) = stripL l := by
  unfold stripL
  generalize hA : List.dropWhile wsb l = A
  have hAc : List.dropWhile wsb A = A := by rw [← hA]; exact dropWhile_idem _ l
  cases hX : List.dropWhile wsb A.reverse with
  | nil => simp
  | cons x xs =>
    have h1 : (x :: xs).getLast? = A.reverse.getLast? := by
      rw [← hX]
      exact getLast?_dropWhile _ _ (by rw [hX]; simp)
    rw [List.getLast?_reverse] at h1
    cases A with
    | nil => simp at hX
    | cons a t =>
      have ha : wsb a = false := dropWhile_eq_self_cons hAc
      simp only [List.head?_cons] at h1
      obtain ⟨ys, hys⟩ : ∃ ys, (x :: xs).reverse = a :: ys := by
        have hh : (x :: xs).reverse.head? = some a := by rw [List.head?_reverse, h1]
        cases hrev : (x :: xs).reverse with
        | nil => rw [hrev] at hh; simp at hh
        | cons z zs =>
          rw [hrev] at hh
          simp only [List.head?_cons, Option.some.injEq] at hh
          exact ⟨zs, by rw [hh]⟩
      rw [hys]
      exact dropWhile_cons_false a ys ha

/-- A list clean on both ends is fixed by `stripL`. -/
theorem stripL_eq_self {X : List Char} (h1 : List.dropWhile wsb X = X)
    (h2 : List.dropWhile wsb X.reverse = X.reverse) : stripL X = X := by
  unfold stripL
  rw [h1, h2, List.reverse_reverse]

/-- Stripping is a no-op after mapping a whitespace-preserving function over a stripped list. -/
theorem stripL_map_clean (f : Char → Char) (hf : ∀ c, wsb c = false → wsb (f c) = false)
    (l : List Char) : stripL ((stripL l).map f) = (stripL l).map f := by
  refine stripL_eq_self (dropWhile_map_of_clean hf (stripL_clean l)) ?_
  rw [← List.map_reverse]
  exact dropWhile_map_of_clean hf (stripL_rev_clean l)

/-- The character-level rename transform is idempotent. -/
theorem normCh_idem (l : List Char) : normCh (normCh l) = normCh l := by
  have hf : ∀ c, wsb c = false → wsb (replS (pyLowerC c)) = false := by
    intro c hc
    exact wsb_replS _ (by rw [wsb_pyLowerC]; exact hc)
  unfold normCh
  rw [List.map_map, List.map_map]
  rw [stripL_map_clean (replS ∘ pyLowerC) (fun c hc => by simpa [Function.comp] using hf c hc) l]
  rw [List.map_map]
  exact List.map_congr_left (fun c _ => by simpa [Function.comp] using normPt c)

/-- The column-name transform is idempotent. -/
theorem normName_idem (s : String) : normName (normName s) = normName s := by
  unfold normName
  rw [show (String.mk (normCh s.data)).data = normCh s.data from rfl, normCh_idem]

/-- Date coercion is idempotent. -/
theorem toDatetime_idem (v : Value) : toDatetime (toDatetime v) = toDatetime v := by
  cases v with
  | date t => rfl
  | nan => rfl
  | num q => rfl
  | str s =>
    unfold toDatetime
    cases h : parseDate s <;> simp [h]

/-- Numeric coercion is idempotent. -/
theorem toNumeric_idem (v : Value) : toNumeric (toNumeric v) = toNumeric v := by
  cases v with
  | date t => rfl
  | nan => rfl
  | num q => rfl
  | str s =>
    unfold toNumeric
    cases h : parseNum s <;> simp [h]

/-- Two `zipWith` passes over the same spine fuse. -/
theorem zipWith_zipWith_same {α β : Type} (f g : α → β → β) (cs : List α) :
    ∀ r : List β,
      List.zipWith f cs (List.zipWith g cs r) = List.zipWith (fun c v => f c (g c v)) cs r := by
  induction cs with
  | nil => intro r; simp
  | cons c cs ih =>
    intro r
    cases r with
    | nil => simp
    | cons v r => simp [ih]

/-- `zipWith` respects pointwise equality. -/
theorem zipWith_congr_fn {α β γ : Type} (f g : α → β → γ) (h : ∀ a b, f a b = g a b)
    (cs : List α) : ∀ r : List β, List.zipWith f cs r = List.zipWith g cs r := by
  induction cs with
  | nil => intro r; simp
  | cons c cs ih =>
    intro r
    cases r with
    | nil => simp
    | cons v r => simp [ih, h]

/-- Renaming all columns twice equals renaming once. -/
theorem map_normName_idem (cols : List String) :
    (cols.map normName).map normName = cols.map normName := by
  rw [List.map_map]
  exact List.map_congr_left (fun c _ => by simpa [Function.comp] using normName_idem c)


/-- A column rewrite with an idempotent cell function is idempotent. -/
theorem mapRow_idem {f : Value → Value} (hf : ∀ v, f (f v) = f v) (name : String)
    (cs : List String) (rows : List (List Value)) :
    List.map (fun r => List.zipWith (fun c v => if c = name then f v else v) cs r)
      (List.map (fun r => List.zipWith (fun c v => if c = name then f v else v) cs r) rows) =
    List.map (fun r => List.zipWith (fun c v => if c = name then f v else v) cs r) rows := by
  rw [List.map_map]
  apply List.map_congr_left
  intro r _
  simp only [Function.comp]
  rw [zipWith_zipWith_same]
  apply zipWith_congr_fn
  intro c v
  by_cases hc : c = name
  · simp [hc, hf]
  · simp [hc]

/-- The due-date and funding column rewrites commute. -/
theorem mapRow_comm (cs : List String) (rows : List (List Value)) :
    List.map (fun r =>
        List.zipWith (fun c v => if c = "application_due_date" then toDatetime v else v) cs r)
      (List.map (fun r =>
        List.zipWith (fun c v => if c = "funding_quantum" then toNumeric v else v) cs r) rows) =
    List.map (fun r =>
        List.zipWith (fun c v => if c = "funding_quantum" then toNumeric v else v) cs r)
      (List.map (fun r =>
        List.zipWith (fun c v => if c = "application_due_date" then toDatetime v else v) cs r)
        rows) := by
  rw [List.map_map, List.map_map]
  apply List.map_congr_left
  intro r _
  simp only [Function.comp]
  rw [zipWith_zipWith_same, zipWith_zipWith_same]
  apply zipWith_congr_fn
  intro c v
  by_cases hc1 : c = "application_due_date"
  · have hc2 : ¬ (c = "funding_quantum") := by rw [hc1]; decide
    simp [hc1, hc2]
  · by_cases hc2 : c = "funding_quantum" <;> simp [hc1, hc2]

/-- C6.  Normalization is idempotent: a second pass renames already-renamed
columns to themselves and re-coerces already-coerced date and numeric cells
to themselves, so `normalize_grant_data (normalize_grant_data df) =
normalize_grant_data df` for every table. -/
theorem normalize_grant_data_idem (df : DF) :
    normalize_grant_data (normalize_grant_data df) = normalize_grant_data df := by
  have hCC := map_normName_idem df.cols
  by_cases h1 : "application_due_date" ∈ df.cols.map normName <;>
    by_cases h2 : "funding_quantum" ∈ df.cols.map normName <;>
    simp only [normalize_grant_data, mapCol, hCC, h1, h2, if_true, if_false]
  · congr 1
    rw [mapRow_comm, mapRow_idem toDatetime_idem, mapRow_idem toNumeric_idem]
  · congr 1
    rw [mapRow_idem toDatetime_idem]
  · congr 1
    rw [mapRow_idem toNumeric_idem]

/-- The cell a column rewrite leaves at each position. -/
theorem mapCol_get (df : DF) (name : String) (f : Value → Value) {i j : Nat}
    {row : List Value} {c : String} {v : Value}
    (hrow : df.rows.get? i = some row) (hc : df.cols.get? j = some c)
    (hv : row.get? j = some v) :
    ∃ row', (mapCol df name f).rows.get? i = some row' ∧
      row'.get? j = some (if c = name then f v else v) := by
  unfold mapCol
  dsimp only
  rw [List.get?_map, hrow]
  refine ⟨_, rfl, ?_⟩
  rw [List.get?_zipWith', hc, hv]
  rfl

/-- C7.  Normalization is a total function of the table (it returns a table
for every input, raising nothing), and bad field values are replaced by the
no-value marker: an `application_due_date` cell whose text fails date
parsing becomes NaT, and a `funding_quantum` cell whose text fails numeric
parsing becomes NaN. -/
theorem normalize_coerces_bad_values (df : DF) :
    (∀ i j row s, df.rows.get? i = some row →
      (df.cols.map normName).get? j = some "application_due_date" →
      row.get? j = some (Value.str s) → parseDate s = none →
      ∃ row', (normalize_grant_data df).rows.get? i = some row' ∧
        row'.get? j = some Value.nan) ∧
    (∀ i j row s, df.rows.get? i = some row →
      (df.cols.map normName).get? j = some "funding_quantum" →
      row.get? j = some (Value.str s) → parseNum s = none →
      ∃ row', (normalize_grant_data df).rows.get? i = some row' ∧
        row'.get? j = some Value.nan) := by
  constructor
  · intro i j row s hrow hcol hval hbad
    have hmem : "application_due_date" ∈ df.cols.map normName := List.get?_mem hcol
    have hnan : toDatetime (Value.str s) = Value.nan := by simp [toDatetime, hbad]
    by_cases h2 : "funding_quantum" ∈ df.cols.map normName <;>
      simp only [normalize_grant_data, mapCol, hmem, h2, if_true, if_false]
    · obtain ⟨row1, hrow1, hcell1⟩ :=
        mapCol_get ⟨df.cols.map normName, df.rows⟩ "application_due_date" toDatetime
          hrow hcol hval
      rw [if_pos rfl, hnan] at hcell1
      obtain ⟨row2, hrow2, hcell2⟩ :=
        mapCol_get (mapCol ⟨df.cols.map normName, df.rows⟩ "application_due_date"
          toDatetime) "funding_quantum" toNumeric hrow1 hcol hcell1
      rw [if_neg (by decide)] at hcell2
      exact ⟨row2, hrow2, hcell2⟩
    · obtain ⟨row1, hrow1, hcell1⟩ :=
        mapCol_get ⟨df.cols.map normName, df.rows⟩ "application_due_date" toDatetime
          hrow hcol hval
      rw [if_pos rfl, hnan] at hcell1
      exact ⟨row1, hrow1, hcell1⟩
  · intro i j row s hrow hcol hval hbad
    have hmem : "funding_quantum" ∈ df.cols.map normName := List.get?_mem hcol
    have hnan : toNumeric (Value.str s) = Value.nan := by simp [toNumeric, hbad]
    by_cases h1 : "application_due_date" ∈ df.cols.map normName <;>
      simp only [normalize_grant_data, mapCol, hmem, h1, if_true, if_false]
    · obtain ⟨row1, hrow1, hcell1⟩ :=
        mapCol_get ⟨df.cols.map normName, df.rows⟩ "application_due_date" toDatetime
          hrow hcol hval
      rw [if_neg (by decide)] at hcell1
      obtain ⟨row2, hrow2, hcell2⟩ :=
        mapCol_get (mapCol ⟨df.cols.map normName, df.rows⟩ "application_due_date"
          toDatetime) "funding_quantum" toNumeric hrow1 hcol hcell1
      rw [if_pos rfl, hnan] at hcell2
      exact ⟨row2, hrow2, hcell2⟩
    · obtain ⟨row1, hrow1, hcell1⟩ :=
        mapCol_get ⟨df.cols.map normName, df.rows⟩ "funding_quantum" toNumeric
          hrow hcol hval
      rw [if_pos rfl, hnan] at hcell1
      exact ⟨row1, hrow1, hcell1⟩

/-- Witness for C7: the unparseable date `"soon"` and the unparseable number
`"N/A"` both come out as the no-value marker. -/
theorem normalize_coerces_bad_values_witness :
    (∃ row', (normalize_grant_data ⟨["Application Due Date", "Funding Quantum"],
        [[Value.str "soon", Value.str "N/A"]]⟩).rows.get? 0 = some row' ∧
      row'.get? 0 = some Value.nan) ∧
    (∃ row', (normalize_grant_data ⟨["Application Due Date", "Funding Quantum"],
        [[Value.str "soon", Value.str "N/A"]]⟩).rows.get? 0 = some row' ∧
      row'.get? 1 = some Value.nan) := by
  constructor
  · exact (normalize_coerces_bad_values _).1 0 0 [Value.str "soon", Value.str "N/A"] "soon"
      rfl (by decide) rfl (by decide)
  · exact (normalize_coerces_bad_values _).2 0 1 [Value.str "soon", Value.str "N/A"] "N/A"
      rfl (by decide) rfl (by decide)
